import Mathlib

/-!
Formal model of the varsity2 repository: the semantic response cache
(`src/semantic_cache.py`), the energy-measurement state machine
(`src/energy_monitor.py`), and the savings computations
(`src/chatbot_app.py`, `src/ab_test_manager.py`).

Numeric model: Python floats are modelled as exact rationals (ℚ).
The external sentence-transformer embedding model and the floating-point
cosine-similarity arithmetic `np.dot(q, e) / (norm(q) * norm(e))`
(`semantic_cache.py` lines 54-56) enter the model through an abstract
score function `sim : E → ℚ` giving each stored embedding its cosine
similarity against the query embedding of the current call; `E` is the
type of stored embedding vectors.  File-system persistence (`save_cache`,
`load_cache`, log files, subprocess telemetry) and wall-clock reads
(`datetime.now()`) are modelled by explicit parameters and state fields.
-/

/-- One step of the linear scan in `SemanticCache.find_similar_prompt`
(`semantic_cache.py` lines 53-60): the accumulator is the pair
`(max_similarity, most_similar_prompt)`, and an entry replaces it only
when its similarity is strictly greater than the running maximum. -/
def scanStep {E : Type} (sim : E → ℚ) (acc : ℚ × Option String) (pe : String × E) : ℚ × Option String :=
  if sim pe.2 > acc.1 then (sim pe.2, some pe.1) else acc

/-- The final threshold test of `find_similar_prompt`
(`semantic_cache.py` lines 62-64): return `most_similar_prompt` when
`max_similarity >= similarity_threshold`, else `None`. -/
def bestMatch (best : ℚ × Option String) (t : ℚ) : Option String :=
  if best.1 ≥ t then best.2 else none

/-- `SemanticCache.find_similar_prompt` (`semantic_cache.py` lines 39-64):
returns `none` on an empty index (`if not self.embeddings`); otherwise
scans all stored `(prompt, embedding)` entries in insertion order
starting from `max_similarity = -1`, `most_similar_prompt = None`, and
returns the recorded best prompt when
`max_similarity >= similarity_threshold`. -/
def find_similar_prompt {E : Type} (sim : E → ℚ) (embeddings : List (String × E)) (similarity_threshold : ℚ) : Option String :=
  if embeddings.isEmpty then none
  else bestMatch (embeddings.foldl (scanStep sim) (-1, none)) similarity_threshold

/-- Python `dict` assignment `d[k] = v` on an insertion-ordered dict:
updates the value in place when the key is present (keeping its
position), otherwise appends the new binding at the end. -/
def dictInsert {A : Type} (k : String) (v : A) : List (String × A) → List (String × A)
  | [] => [(k, v)]
  | e :: rest => if e.1 = k then (k, v) :: rest else e :: dictInsert k v rest

/-- The mutable state of a `SemanticCache` instance
(`semantic_cache.py` lines 22-26): the insertion-ordered dicts
`self.embeddings` (prompt → embedding) and `self.responses`
(prompt → response), plus `self.similarity_threshold`.
The `cache_path` / pickle persistence is outside the model. -/
structure SCache (E : Type) where
  embeddings : List (String × E)
  responses : List (String × String)
  similarity_threshold : ℚ

/-- `SemanticCache.__init__` (`semantic_cache.py` lines 13-33) with no
pre-existing pickle file: both dicts start empty and the given
`similarity_threshold` is stored as passed, with no validation,
clamping, or rejection of out-of-range values. -/
def initCache (E : Type) (similarity_threshold : ℚ) : SCache E :=
  { embeddings := [], responses := [], similarity_threshold := similarity_threshold }

/-- `SemanticCache.add_to_cache` (`semantic_cache.py` lines 66-70):
`self.embeddings[prompt] = embedding; self.responses[prompt] = response`.
The trailing `save_cache()` (disk persistence) is outside the model.
No similarity computation or merging is performed. -/
def add_to_cache {E : Type} (c : SCache E) (prompt : String) (embedding : E) (response : String) : SCache E :=
  { c with
    embeddings := dictInsert prompt embedding c.embeddings,
    responses := dictInsert prompt response c.responses }

/-- Python dict key lookup `d[k]` restricted to its success value:
first binding whose key equals `k`, if any. -/
def lookupKey (k : String) : List (String × String) → Option String
  | [] => none
  | e :: rest => if e.1 = k then some e.2 else lookupKey k rest

/-- `SemanticCache.get_response` (`semantic_cache.py` lines 72-77):
`similar_prompt = find_similar_prompt(prompt); if similar_prompt: return
self.responses[similar_prompt]; return None`.  The Python truthiness
test `if similar_prompt:` is false both for `None` and for the empty
string, so a matched empty-string prompt yields `None`.  A missing key
in `self.responses` would raise `KeyError`, modelled as `Except.error`. -/
def get_response {E : Type} (sim : E → ℚ) (c : SCache E) : Except String (Option String) :=
  match find_similar_prompt sim c.embeddings c.similarity_threshold with
  | some p =>
    if p = "" then Except.ok none
    else
      match lookupKey p c.responses with
      | some r => Except.ok (some r)
      | none => Except.error "KeyError"
  | none => Except.ok none

/-- A sequence of `add_to_cache` calls, left to right. -/
def addAll {E : Type} (c : SCache E) (items : List (String × E × String)) : SCache E :=
  items.foldl (fun acc it => add_to_cache acc it.1 it.2.1 it.2.2) c

/-- Cache states reachable from a fresh `SemanticCache` (empty store) by
`add_to_cache` calls; `find_similar_prompt` and `get_response` do not
mutate the state. -/
inductive ReachableCache {E : Type} : SCache E → Prop
  | init (t : ℚ) : ReachableCache (initCache E t)
  | add {c : SCache E} (h : ReachableCache c) (p : String) (e : E) (r : String) :
      ReachableCache (add_to_cache c p e r)

/-- One reading returned by `EnergyMonitor._get_power_usage`
(`energy_monitor.py` lines 62-107): a dict whose `type` field is one of
the strings `"nvidia_gpu"`, `"macos"`, `"generic"`, with power and
utilization values present or absent.  Timestamps carried by the
`"generic"` dict are irrelevant to the results and omitted. -/
structure PowerReading where
  type : String
  power_watts : Option ℚ
  cpu_utilization : Option ℚ
  memory_utilization : Option ℚ
deriving DecidableEq

/-- The mutable state of an `EnergyMonitor` instance
(`energy_monitor.py` lines 18-24): `self.start_power`, `self.start_time`
(both `None` until `start_monitoring`), `self.system`
(`platform.system()`), `self.power_readings`, and — as explicit state —
the contents of the continuous-sampler output file
`~/.power_monitor/power_readings.txt`, recorded as the parsed
`user + sys` CPU-usage percentages of its `CPU usage` lines.  Wall-clock
times are rationals supplied by the caller; log-file setup in
`__init__` is outside the model. -/
structure EnergyMonitor where
  start_power : Option PowerReading
  start_time : Option ℚ
  system : String
  power_readings : List ℚ
  power_file : List ℚ
deriving DecidableEq

/-- `EnergyMonitor.__init__` (`energy_monitor.py` lines 18-24): no
start sample, no start time, empty reading lists. -/
def initMonitor (system : String) : EnergyMonitor :=
  { start_power := none, start_time := none, system := system,
    power_readings := [], power_file := [] }

/-- `EnergyMonitor._stop_continuous_power_monitoring`
(`energy_monitor.py` lines 274-308): on macOS (`system == 'Darwin'`),
converts each recorded CPU-usage percentage to an estimated power
`(cpu_usage / 100.0) * 10.0` and returns the average when at least one
value was parsed, else `None`; on other systems, `None`. -/
def stop_continuous (m : EnergyMonitor) : Option ℚ :=
  if m.system = "Darwin" then
    let power_values := m.power_file.map (fun cpu_usage => cpu_usage / 100 * 10)
    if power_values.isEmpty then none
    else some (power_values.sum / power_values.length)
  else none

/-- `EnergyMonitor.start_monitoring` (`energy_monitor.py` lines 310-329):
sets `self.start_time` to the current time, resets
`self.power_readings`, takes the baseline sample into
`self.start_power`, and on macOS starts the continuous sampler —
`_start_continuous_power_monitoring` (lines 252-272) truncates the
readings file before spawning the background `top` loop. -/
def start_monitoring (m : EnergyMonitor) (now : ℚ) (reading : PowerReading) : EnergyMonitor :=
  { m with
    start_time := some now,
    power_readings := [],
    start_power := some reading,
    power_file := if m.system = "Darwin" then [] else m.power_file }

/-- One appended line of the background `top` sampler spawned by
`_start_continuous_power_monitoring` (`energy_monitor.py` line 266):
a `CPU usage` line whose parsed `user + sys` percentage lands in the
readings file. -/
def record_sample (m : EnergyMonitor) (cpu_usage : ℚ) : EnergyMonitor :=
  { m with power_file := m.power_file ++ [cpu_usage] }

/-- The power-related fields of the dict returned by
`EnergyMonitor.end_monitoring` (`energy_monitor.py` lines 345-398).
`none` models an absent dict key.  The timestamp strings,
`system_type`, start/end power copies and CPU/memory utilization keys
do not bear on any claim and are omitted. -/
structure EnergyResult where
  duration_seconds : ℚ
  avg_power_watts : Option ℚ
  energy_joules : Option ℚ
  energy_wh : Option ℚ
deriving DecidableEq

/-- `EnergyMonitor.end_monitoring` (`energy_monitor.py` lines 331-398):
takes the end sample (supplied here as `end_power`), collects the
continuous average (macOS only), computes
`duration_seconds = end_time - start_time` (0 when `start_monitoring`
was never called), and fills power fields only when a start sample
exists and start/end samples share a `type`: for `'nvidia_gpu'` the
average of the two endpoint powers (missing values defaulting to 0);
for `'macos'`/`'linux'` the continuous average if available, else the
endpoint average when both endpoint powers are present; in every other
case the power fields stay absent.  The function raises no exception:
it is total on all inputs. -/
def end_monitoring (m : EnergyMonitor) (now : ℚ) (end_power : PowerReading) : EnergyResult :=
  let avg_power := stop_continuous m
  let duration_seconds : ℚ :=
    match m.start_time with
    | some t => now - t
    | none => 0
  match m.start_power with
  | none =>
    { duration_seconds := duration_seconds, avg_power_watts := none,
      energy_joules := none, energy_wh := none }
  | some start_power =>
    if start_power.type = end_power.type then
      if start_power.type = "nvidia_gpu" then
        let avg := (start_power.power_watts.getD 0 + end_power.power_watts.getD 0) / 2
        { duration_seconds := duration_seconds, avg_power_watts := some avg,
          energy_joules := some (avg * duration_seconds),
          energy_wh := some (avg * duration_seconds / 3600) }
      else if start_power.type = "macos" ∨ start_power.type = "linux" then
        match avg_power with
        | some a =>
          { duration_seconds := duration_seconds, avg_power_watts := some a,
            energy_joules := some (a * duration_seconds),
            energy_wh := some (a * duration_seconds / 3600) }
        | none =>
          match start_power.power_watts, end_power.power_watts with
          | some power_start, some power_end =>
            let avg_p := (power_start + power_end) / 2
            { duration_seconds := duration_seconds, avg_power_watts := some avg_p,
              energy_joules := some (avg_p * duration_seconds),
              energy_wh := some (avg_p * duration_seconds / 3600) }
          | _, _ =>
            { duration_seconds := duration_seconds, avg_power_watts := none,
              energy_joules := none, energy_wh := none }
      else
        { duration_seconds := duration_seconds, avg_power_watts := none,
          energy_joules := none, energy_wh := none }
    else
      { duration_seconds := duration_seconds, avg_power_watts := none,
        energy_joules := none, energy_wh := none }

/-- The average-power selection rule actually implemented by
`end_monitoring`, stated separately so the code can be proved to refine
it: power fields require a start sample and matching source types;
`'nvidia_gpu'` uses the endpoint mean (ignoring continuous samples);
`'macos'`/`'linux'` prefer the continuous mean and fall back to the
endpoint mean when both endpoint powers exist; anything else yields no
average. -/
def avgPowerRule (m : EnergyMonitor) (end_power : PowerReading) : Option ℚ :=
  match m.start_power with
  | none => none
  | some start_power =>
    if start_power.type = end_power.type then
      if start_power.type = "nvidia_gpu" then
        some ((start_power.power_watts.getD 0 + end_power.power_watts.getD 0) / 2)
      else if start_power.type = "macos" ∨ start_power.type = "linux" then
        match stop_continuous m with
        | some a => some a
        | none =>
          match start_power.power_watts, end_power.power_watts with
          | some power_start, some power_end => some ((power_start + power_end) / 2)
          | _, _ => none
      else none
    else none

/-- The metrics dicts handed to the savings computations: the
`energy_wh` / `duration_seconds` / `avg_power_watts` keys of an
`end_monitoring` result dict (or of the stats dicts built from it in
`chatbot_app.py`); `none` models an absent key. -/
structure StatsDict where
  energy_wh : Option ℚ
  duration_seconds : Option ℚ
  avg_power_watts : Option ℚ
deriving DecidableEq

/-- Python `round(x, n)` on exact values: round half to even at `n`
decimal digits.  (Binary-float representation error of the inputs is
outside the rational model.) -/
def pyRound (x : ℚ) : ℤ :=
  if x - ⌊x⌋ < 1/2 then ⌊x⌋
  else if 1/2 < x - ⌊x⌋ then ⌊x⌋ + 1
  else if ⌊x⌋ % 2 = 0 then ⌊x⌋ else ⌊x⌋ + 1

/-- `round(x, n)` at `n` decimal digits, as a rational. -/
def roundTo (n : ℕ) (x : ℚ) : ℚ :=
  (pyRound (x * 10 ^ n) : ℚ) / 10 ^ n

/-- The dict returned by `ChatbotApp._calculate_savings`
(`chatbot_app.py` lines 164-171). -/
structure SavingsReport where
  energy_saved_wh : ℚ
  time_saved_seconds : ℚ
  carbon_saved_g : ℚ
  trees_equivalent : ℚ
  percentage_saved : ℚ
deriving DecidableEq

/-- `ChatbotApp._calculate_savings` (`chatbot_app.py` lines 156-171):
differences use `.get(key, 0)`; the percentage divides by
`uncached_stats.get('energy_wh', 1)` — default 1 only when the key is
absent, so a *present* zero value reaches the division and Python
raises `ZeroDivisionError`, modelled as `Except.error`. -/
def calculate_savings (cached_stats uncached_stats : StatsDict) : Except String SavingsReport :=
  let energy_saved := uncached_stats.energy_wh.getD 0 - cached_stats.energy_wh.getD 0
  let time_saved := uncached_stats.duration_seconds.getD 0 - cached_stats.duration_seconds.getD 0
  let carbon_saved := energy_saved * 475 / 1000
  if uncached_stats.energy_wh.getD 1 = 0 then Except.error "ZeroDivisionError"
  else Except.ok
    { energy_saved_wh := roundTo 3 energy_saved,
      time_saved_seconds := roundTo 2 time_saved,
      carbon_saved_g := roundTo 2 carbon_saved,
      trees_equivalent := roundTo 4 (carbon_saved * (85 / 10000)),
      percentage_saved := roundTo 1
        ((uncached_stats.energy_wh.getD 0 - cached_stats.energy_wh.getD 0) /
          uncached_stats.energy_wh.getD 1 * 100) }

/-- The record built and persisted by `ABTestManager.run_comparison`
(`ab_test_manager.py` lines 39-52); the `timestamp` field (wall clock)
is omitted. -/
structure ABResult where
  prompt_length : ℕ
  cached_response_length : ℕ
  uncached_response_length : ℕ
  cached_duration : ℚ
  uncached_duration : ℚ
  cached_energy_wh : ℚ
  uncached_energy_wh : ℚ
  energy_saved_wh : ℚ
  carbon_saved_kg : ℚ
  cached_power_watts : ℚ
  uncached_power_watts : ℚ
deriving DecidableEq

/-- `ABTestManager.run_comparison` (`ab_test_manager.py` lines 25-56):
`energy_saved = max(0, uncached_energy - cached_energy)` — the
per-record saved energy is clamped at zero — and
`carbon_saved = energy_saved * (475 / 1000)` using the
`global_average` carbon factor.  The `_append_result` persistence is
outside the model; the returned record is exactly what is appended. -/
def run_comparison (prompt cached_text uncached_text : String) (cached_metrics uncached_metrics : StatsDict) : ABResult :=
  let cached_energy := cached_metrics.energy_wh.getD 0
  let uncached_energy := uncached_metrics.energy_wh.getD 0
  let energy_saved := max 0 (uncached_energy - cached_energy)
  let carbon_saved := energy_saved * (475 / 1000)
  { prompt_length := prompt.length,
    cached_response_length := cached_text.length,
    uncached_response_length := uncached_text.length,
    cached_duration := cached_metrics.duration_seconds.getD 0,
    uncached_duration := uncached_metrics.duration_seconds.getD 0,
    cached_energy_wh := cached_energy,
    uncached_energy_wh := uncached_energy,
    energy_saved_wh := energy_saved,
    carbon_saved_kg := carbon_saved,
    cached_power_watts := cached_metrics.avg_power_watts.getD 0,
    uncached_power_watts := uncached_metrics.avg_power_watts.getD 0 }

/- ### Scan lemmas -/

theorem scan_cases {E : Type} (sim : E → ℚ) (l : List (String × E)) :
    ∀ acc : ℚ × Option String,
      (l.foldl (scanStep sim) acc = acc ∧ ∀ pe ∈ l, sim pe.2 ≤ acc.1)
    ∨ (∃ pre p e suf, l = pre ++ (p, e) :: suf
        ∧ l.foldl (scanStep sim) acc = (sim e, some p)
        ∧ acc.1 < sim e
        ∧ (∀ qe ∈ pre, sim qe.2 < sim e)
        ∧ (∀ qe ∈ suf, sim qe.2 ≤ sim e)) := by
  induction l with
  | nil =>
    intro acc
    left
    exact ⟨rfl, by simp⟩
  | cons hd rest ih =>
    intro acc
    rw [List.foldl_cons]
    rcases ih (scanStep sim acc hd) with ⟨heq, hle⟩ | ⟨pre, p, e, suf, hsplit, heq, hlt, hpre, hsuf⟩
    · by_cases h : sim hd.2 > acc.1
      · right
        have hstep : scanStep sim acc hd = (sim hd.2, some hd.1) := by
          simp [scanStep, h]
        refine ⟨[], hd.1, hd.2, rest, by simp, ?_, h, by simp, ?_⟩
        · rw [heq, hstep]
        · intro qe hqe
          have hb := hle qe hqe
          rw [hstep] at hb
          exact hb
      · left
        have hstep : scanStep sim acc hd = acc := by
          simp [scanStep, h]
        rw [hstep] at heq hle
        refine ⟨by rw [hstep]; exact heq, ?_⟩
        intro qe hqe
        rcases List.mem_cons.mp hqe with hqe | hqe
        · rw [hqe]
          exact le_of_not_lt h
        · exact hle qe hqe
    · right
      have hacc : acc.1 ≤ (scanStep sim acc hd).1 := by
        by_cases h : sim hd.2 > acc.1
        · have hstep : scanStep sim acc hd = (sim hd.2, some hd.1) := by
            simp [scanStep, h]
          rw [hstep]
          exact le_of_lt h
        · have hstep : scanStep sim acc hd = acc := by
            simp [scanStep, h]
          rw [hstep]
      have hhd : sim hd.2 ≤ (scanStep sim acc hd).1 := by
        by_cases h : sim hd.2 > acc.1
        · have hstep : scanStep sim acc hd = (sim hd.2, some hd.1) := by
            simp [scanStep, h]
          rw [hstep]
        · have hstep : scanStep sim acc hd = acc := by
            simp [scanStep, h]
          rw [hstep]
          exact le_of_not_lt h
      refine ⟨hd :: pre, p, e, suf, ?_, heq, lt_of_le_of_lt hacc hlt, ?_, hsuf⟩
      · rw [hsplit, List.cons_append]
      · intro qe hqe
        rcases List.mem_cons.mp hqe with hqe | hqe
        · rw [hqe]
          exact lt_of_le_of_lt hhd hlt
        · exact hpre qe hqe

theorem find_eq_some {E : Type} {sim : E → ℚ} {l : List (String × E)} {t : ℚ} {p : String}
    (hp : find_similar_prompt sim l t = some p) :
    ∃ pre e suf, l = pre ++ (p, e) :: suf
      ∧ t ≤ sim e
      ∧ (∀ qe ∈ pre, sim qe.2 < sim e)
      ∧ (∀ qe ∈ suf, sim qe.2 ≤ sim e) := by
  unfold find_similar_prompt at hp
  by_cases hl : l.isEmpty
  · rw [if_pos hl] at hp
    exact absurd hp (by simp)
  · rw [if_neg hl] at hp
    rcases scan_cases sim l (-1, none) with ⟨heq, _⟩ | ⟨pre, p', e, suf, hsplit, heq, _, hpre, hsuf⟩
    · rw [heq] at hp
      unfold bestMatch at hp
      by_cases ht : (-1 : ℚ) ≥ t
      · rw [if_pos ht] at hp
        exact absurd hp (by simp)
      · rw [if_neg ht] at hp
        exact absurd hp (by simp)
    · rw [heq] at hp
      unfold bestMatch at hp
      by_cases ht : sim e ≥ t
      · rw [if_pos ht] at hp
        have hpp : p' = p := Option.some_injective _ hp
        rw [hpp] at hsplit heq
        exact ⟨pre, e, suf, hsplit, ht, hpre, hsuf⟩
      · rw [if_neg ht] at hp
        exact absurd hp (by simp)

theorem find_hit {E : Type} {sim : E → ℚ} {l : List (String × E)} {t : ℚ}
    (hgt : -1 < t) (hex : ∃ pe ∈ l, t ≤ sim pe.2) :
    ∃ p, find_similar_prompt sim l t = some p := by
  rcases hex with ⟨pe, hmem, hpe⟩
  have hl : ¬ l.isEmpty := by
    cases l with
    | nil => exact absurd hmem (List.not_mem_nil pe)
    | cons a as => simp
  unfold find_similar_prompt
  rw [if_neg hl]
  rcases scan_cases sim l (-1, none) with ⟨_, hle⟩ | ⟨pre, p, e, suf, hsplit, heq, _, hpre, hsuf⟩
  · exact absurd (le_trans hpe (hle pe hmem)) (not_le.mpr hgt)
  · refine ⟨p, ?_⟩
    rw [heq]
    have hmax : sim pe.2 ≤ sim e := by
      rw [hsplit] at hmem
      rcases List.mem_append.mp hmem with hmem | hmem
      · exact le_of_lt (hpre pe hmem)
      · rcases List.mem_cons.mp hmem with hmem | hmem
        · rw [hmem]
        · exact hsuf pe hmem
    have ht : sim e ≥ t := le_trans hpe hmax
    unfold bestMatch
    rw [if_pos ht]

theorem find_mem {E : Type} {sim : E → ℚ} {l : List (String × E)} {t : ℚ} {p : String}
    (hp : find_similar_prompt sim l t = some p) : p ∈ l.map Prod.fst := by
  rcases find_eq_some hp with ⟨pre, e, suf, hsplit, _, _, _⟩
  rw [hsplit]
  simp

/- ### Dict lemmas -/

theorem dictInsert_cons {A : Type} (k : String) (v : A) (e : String × A) (rest : List (String × A)) :
    dictInsert k v (e :: rest) = if e.1 = k then (k, v) :: rest else e :: dictInsert k v rest := by
  rfl

theorem dictInsert_of_not_mem {A : Type} {k : String} (v : A) {l : List (String × A)}
    (h : k ∉ l.map Prod.fst) : dictInsert k v l = l ++ [(k, v)] := by
  induction l with
  | nil => rfl
  | cons e rest ih =>
    rw [List.map_cons] at h
    have h1 : e.1 ≠ k := fun he => h (he ▸ List.mem_cons_self _ _)
    have h2 : k ∉ rest.map Prod.fst := fun hm => h (List.mem_cons_of_mem _ hm)
    rw [dictInsert_cons, if_neg h1, ih h2, List.cons_append]

theorem dictInsert_keys {A : Type} (k : String) (v : A) (l : List (String × A)) :
    (dictInsert k v l).map Prod.fst =
      if k ∈ l.map Prod.fst then l.map Prod.fst else l.map Prod.fst ++ [k] := by
  induction l with
  | nil => simp [dictInsert]
  | cons e rest ih =>
    rw [dictInsert_cons]
    by_cases he : e.1 = k
    · rw [if_pos he, List.map_cons, List.map_cons, if_pos (by rw [he]; exact List.mem_cons_self _ _)]
      rw [he]
    · rw [if_neg he, List.map_cons, List.map_cons, ih]
      by_cases hm : k ∈ rest.map Prod.fst
      · rw [if_pos hm, if_pos (List.mem_cons_of_mem _ hm)]
      · rw [if_neg hm, if_neg ?_, List.cons_append]
        intro hc
        rcases List.mem_cons.mp hc with hc | hc
        · exact he hc.symm
        · exact hm hc

theorem lookupKey_of_mem {k : String} {l : List (String × String)}
    (h : k ∈ l.map Prod.fst) : ∃ r, lookupKey k l = some r := by
  induction l with
  | nil => simp at h
  | cons e rest ih =>
    by_cases he : e.1 = k
    · exact ⟨e.2, by rw [lookupKey, if_pos he]⟩
    · rw [List.map_cons] at h
      rcases List.mem_cons.mp h with h | h
      · exact absurd h.symm he
      · rcases ih h with ⟨r, hr⟩
        exact ⟨r, by rw [lookupKey, if_neg he]; exact hr⟩

/- ### Reachability invariants -/

theorem reachable_keys_eq {E : Type} {c : SCache E} (h : ReachableCache c) :
    c.embeddings.map Prod.fst = c.responses.map Prod.fst := by
  induction h with
  | init t => rfl
  | add h p e r ih =>
    show (dictInsert p e _).map Prod.fst = (dictInsert p r _).map Prod.fst
    rw [dictInsert_keys, dictInsert_keys, ih]

theorem reachable_keys_nodup {E : Type} {c : SCache E} (h : ReachableCache c) :
    (c.embeddings.map Prod.fst).Nodup := by
  induction h with
  | init t => simp [initCache]
  | add h p e r ih =>
    show ((dictInsert p e _).map Prod.fst).Nodup
    rw [dictInsert_keys]
    split
    · exact ih
    · rename_i hm
      rw [List.nodup_append]
      exact ⟨ih, List.nodup_singleton p, by
        intro a ha hb
        rw [List.mem_singleton] at hb
        exact hm (hb ▸ ha)⟩

theorem addAll_cons {E : Type} (c : SCache E) (it : String × E × String) (rest : List (String × E × String)) :
    addAll c (it :: rest) = addAll (add_to_cache c it.1 it.2.1 it.2.2) rest := by
  rfl

theorem addAll_length {E : Type} :
    ∀ (items : List (String × E × String)) (c : SCache E),
      (∀ it ∈ items, it.1 ∉ c.embeddings.map Prod.fst) →
      (items.map Prod.fst).Nodup →
      (addAll c items).embeddings.length = c.embeddings.length + items.length := by
  intro items
  induction items with
  | nil =>
    intro c _ _
    simp [addAll]
  | cons it rest ih =>
    intro c hmem hnd
    rw [addAll_cons]
    have h1 : it.1 ∉ c.embeddings.map Prod.fst := hmem it (List.mem_cons_self _ _)
    have hkeys : (add_to_cache c it.1 it.2.1 it.2.2).embeddings = c.embeddings ++ [(it.1, it.2.1)] :=
      dictInsert_of_not_mem _ h1
    rw [List.map_cons, List.nodup_cons] at hnd
    have hrest : ∀ jt ∈ rest, jt.1 ∉ (add_to_cache c it.1 it.2.1 it.2.2).embeddings.map Prod.fst := by
      intro jt hjt hc
      rw [hkeys, List.map_append, List.mem_append] at hc
      rcases hc with hc | hc
      · exact hmem jt (List.mem_cons_of_mem _ hjt) hc
      · rw [List.map_singleton, List.mem_singleton] at hc
        exact hnd.1 (hc ▸ List.mem_map_of_mem Prod.fst hjt)
    rw [ih _ hrest hnd.2, hkeys, List.length_append]
    simp
    omega

/- ### Rounding lemmas -/

theorem pyRound_le_add_half (x : ℚ) : (pyRound x : ℚ) ≤ x + 1/2 := by
  unfold pyRound
  have hf : (⌊x⌋ : ℚ) ≤ x := Int.floor_le x
  by_cases h1 : x - ⌊x⌋ < 1/2
  · rw [if_pos h1]
    linarith
  · rw [if_neg h1]
    by_cases h2 : 1/2 < x - ⌊x⌋
    · rw [if_pos h2]
      push_cast
      linarith
    · rw [if_neg h2]
      have heq : x - ⌊x⌋ = 1/2 := le_antisymm (le_of_not_lt h2) (le_of_not_lt h1)
      by_cases h3 : ⌊x⌋ % 2 = 0
      · rw [if_pos h3]
        linarith
      · rw [if_neg h3]
        push_cast
        linarith

theorem roundTo_neg {x : ℚ} (h : x ≤ -(1/1000)) : roundTo 3 x < 0 := by
  unfold roundTo
  have h1 : (pyRound (x * 10 ^ 3) : ℚ) ≤ x * 10 ^ 3 + 1/2 := pyRound_le_add_half _
  have h2 : x * 10 ^ 3 ≤ -1 := by nlinarith
  have h3 : (pyRound (x * 10 ^ 3) : ℚ) < 0 := by
    generalize hy : x * 10 ^ 3 = y at h1 h2 ⊢
    linarith
  have hpos : (0 : ℚ) < 10 ^ 3 := by norm_num
  exact div_neg_of_neg_of_pos h3 hpos

/- ### Energy monitor lemmas -/

theorem foldl_record_sample_system (cs : List ℚ) (m : EnergyMonitor) :
    (cs.foldl record_sample m).system = m.system := by
  induction cs generalizing m with
  | nil => rfl
  | cons c rest ih =>
    rw [List.foldl_cons]
    exact ih _

theorem end_monitoring_refines (m : EnergyMonitor) (now : ℚ) (end_power : PowerReading) :
    (end_monitoring m now end_power).avg_power_watts = avgPowerRule m end_power
    ∧ (end_monitoring m now end_power).energy_joules =
        (end_monitoring m now end_power).avg_power_watts.map
          (fun a => a * (end_monitoring m now end_power).duration_seconds)
    ∧ (end_monitoring m now end_power).energy_wh =
        (end_monitoring m now end_power).avg_power_watts.map
          (fun a => a * (end_monitoring m now end_power).duration_seconds / 3600)
    ∧ (end_monitoring m now end_power).duration_seconds =
        (match m.start_time with
         | some t => now - t
         | none => 0) := by
  unfold end_monitoring avgPowerRule
  cases m.start_power with
  | none => simp
  | some start_power =>
    by_cases h1 : start_power.type = end_power.type
    · simp only [if_pos h1]
      by_cases h2 : start_power.type = "nvidia_gpu"
      · simp only [if_pos h2]
        simp
      · simp only [if_neg h2]
        by_cases h3 : start_power.type = "macos" ∨ start_power.type = "linux"
        · simp only [if_pos h3]
          cases stop_continuous m with
          | some a => simp
          | none =>
            cases start_power.power_watts with
            | some power_start =>
              cases end_power.power_watts with
              | some power_end => simp
              | none => simp
            | none => simp
        · simp only [if_neg h3]
          simp
    · simp only [if_neg h1]
      simp

/- ### Claim theorems -/

/-- Claim C1, counterexample.  The claim states that `find_similar_prompt`
returns a match whenever the index is non-empty and the maximum cosine
similarity is at least the configured threshold.  At a cache holding one
entry whose similarity to the query is exactly −1 (antiparallel
embeddings) under configured threshold −1 (accepted unvalidated by the
constructor), the index is non-empty and the maximum similarity −1
satisfies −1 ≥ −1, yet the scan — whose running maximum starts at the
sentinel −1 and only moves on strictly greater scores — never records a
best prompt, so the function returns `none`. -/
theorem claim1_ctrex :
    ([("a", ())] : List (String × Unit)) ≠ []
    ∧ (∀ pe ∈ ([("a", ())] : List (String × Unit)), (fun _ : Unit => (-1 : ℚ)) pe.2 = -1)
    ∧ ((-1 : ℚ) ≥ (-1 : ℚ))
    ∧ find_similar_prompt (fun _ : Unit => (-1 : ℚ)) [("a", ())] (-1) = none := by
  refine ⟨by simp, by decide, le_refl _, by decide⟩

/-- Claim C1, amended: on an empty index, `find_similar_prompt` returns
`none` for every threshold; it never returns a match whose stored
similarity is strictly below the threshold; and whenever the threshold
exceeds the −1 scan sentinel (in particular for any threshold in
[0, 1]), it returns a match as soon as some stored entry reaches the
threshold — the only deviation from the claimed if-and-only-if being the
degenerate case threshold ≤ −1 with every similarity equal to −1. -/
theorem claim1_main {E : Type} (sim : E → ℚ) (l : List (String × E)) (t : ℚ) :
    find_similar_prompt sim ([] : List (String × E)) t = none
    ∧ (∀ p, find_similar_prompt sim l t = some p → ∃ e, (p, e) ∈ l ∧ t ≤ sim e)
    ∧ (-1 < t → (∃ pe ∈ l, t ≤ sim pe.2) → ∃ p, find_similar_prompt sim l t = some p) := by
  refine ⟨rfl, ?_, ?_⟩
  · intro p hp
    rcases find_eq_some hp with ⟨pre, e, suf, hsplit, ht, _, _⟩
    exact ⟨e, by rw [hsplit]; simp, ht⟩
  · intro hgt hex
    exact find_hit hgt hex

/-- Witness for `claim1_main` at concrete inputs: threshold 0 on the
singleton index `[("a", 1)]` yields a hit, and the empty index yields
`none`. -/
theorem claim1_witness :
    find_similar_prompt (fun x : ℚ => x) ([] : List (String × ℚ)) 0 = none
    ∧ (∃ e, ("a", e) ∈ ([("a", (1 : ℚ))] : List (String × ℚ)) ∧ (0 : ℚ) ≤ (fun x : ℚ => x) e)
    ∧ (∃ p, find_similar_prompt (fun x : ℚ => x) [("a", (1 : ℚ))] 0 = some p) := by
  obtain ⟨h1, h2, h3⟩ := claim1_main (fun x : ℚ => x) [("a", (1 : ℚ))] 0
  exact ⟨h1, h2 "a" (by decide), h3 (by norm_num) ⟨("a", 1), by simp, by norm_num⟩⟩

/-- Claim C2: in any cache state — in particular one where two distinct
stored prompts attain the same maximal similarity — any match returned
by `find_similar_prompt` is the first entry of the forward scan whose
similarity is attained by no earlier entry and exceeded by no later
entry, i.e. the earliest-inserted maximal entry; and the result is
deterministic: every evaluation on the same state returns that same
prompt. -/
theorem claim2_main {E : Type} (sim : E → ℚ) (l : List (String × E)) (t : ℚ)
    (p₁ p₂ : String) (e₁ e₂ : E)
    (hm₁ : (p₁, e₁) ∈ l) (hm₂ : (p₂, e₂) ∈ l) (hne : p₁ ≠ p₂)
    (hmax : ∀ qe ∈ l, sim qe.2 ≤ sim e₁) (htie : sim e₂ = sim e₁)
    (p : String) (hp : find_similar_prompt sim l t = some p) :
    (∃ pre e suf, l = pre ++ (p, e) :: suf
      ∧ (∀ qe ∈ pre, sim qe.2 < sim e)
      ∧ (∀ qe ∈ suf, sim qe.2 ≤ sim e))
    ∧ (∀ p', find_similar_prompt sim l t = some p' → p' = p) := by
  constructor
  · rcases find_eq_some hp with ⟨pre, e, suf, hsplit, _, hpre, hsuf⟩
    exact ⟨pre, e, suf, hsplit, hpre, hsuf⟩
  · intro p' hp'
    rw [hp] at hp'
    exact (Option.some_injective _ hp').symm

/-- Witness for `claim2_main`: two entries `("a", 1)`, `("b", 1)` tie at
similarity 1 with threshold 1; the returned match is `"a"`, the
earliest inserted. -/
theorem claim2_witness :
    (∃ pre e suf, ([("a", (1 : ℚ)), ("b", 1)] : List (String × ℚ)) = pre ++ ("a", e) :: suf
      ∧ (∀ qe ∈ pre, (fun x : ℚ => x) qe.2 < (fun x : ℚ => x) e)
      ∧ (∀ qe ∈ suf, (fun x : ℚ => x) qe.2 ≤ (fun x : ℚ => x) e))
    ∧ (∀ p', find_similar_prompt (fun x : ℚ => x) [("a", (1 : ℚ)), ("b", 1)] 1 = some p' → p' = "a") := by
  exact claim2_main (fun x : ℚ => x) [("a", (1 : ℚ)), ("b", 1)] 1 "a" "b" 1 1
    (by simp) (by simp) (by decide) (by decide) rfl "a" (by decide)

/-- Claim C8: in every reachable cache state the index holds at most
one entry per distinct prompt string; `add_to_cache` with a prompt
textually distinct from every stored prompt appends a brand-new entry
and leaves every existing entry untouched (no merge or update — the
function never consults similarity or the threshold); and inserting `n`
pairwise textually distinct prompts into a fresh cache yields exactly
`n` entries. -/
theorem claim8_main {E : Type} (c : SCache E) (hc : ReachableCache c)
    (p : String) (e : E) (r : String) (t : ℚ) (items : List (String × E × String)) :
    (c.embeddings.map Prod.fst).Nodup
    ∧ (p ∉ c.embeddings.map Prod.fst →
        (add_to_cache c p e r).embeddings = c.embeddings ++ [(p, e)])
    ∧ ((items.map Prod.fst).Nodup →
        (addAll (initCache E t) items).embeddings.length = items.length) := by
  refine ⟨reachable_keys_nodup hc, ?_, ?_⟩
  · intro hp
    exact dictInsert_of_not_mem _ hp
  · intro hnd
    have h0 : ∀ it ∈ items, it.1 ∉ (initCache E t).embeddings.map Prod.fst := by
      intro it _ hmem
      simp [initCache] at hmem
    have := addAll_length items (initCache E t) h0 hnd
    simpa [initCache] using this

/-- Witness for `claim8_main`: a fresh cache with threshold 1, one
distinct insertion, and a two-element distinct batch. -/
theorem claim8_witness :
    (((initCache ℚ 1).embeddings.map Prod.fst).Nodup)
    ∧ (add_to_cache (initCache ℚ 1) "a" (1 : ℚ) "ra").embeddings
        = (initCache ℚ 1).embeddings ++ [("a", (1 : ℚ))]
    ∧ (addAll (initCache ℚ 1) [("a", (1 : ℚ), "ra"), ("b", 2, "rb")]).embeddings.length = 2 := by
  have h := claim8_main (initCache ℚ 1) (ReachableCache.init 1) "a" 1 "ra" 1
    [("a", (1 : ℚ), "ra"), ("b", 2, "rb")]
  exact ⟨h.1, h.2.1 (by simp [initCache]), h.2.2 (by decide)⟩

/-- Claim C9: the claim states that a similarity threshold outside
[0, 1] is rejected at construction time.  The constructor is total and
performs no validation: it accepts 2 (greater than 1) and −1 (less
than 0) and stores them unchanged for use in the similarity decision. -/
theorem claim9_thm :
    (initCache Unit 2).similarity_threshold = 2
    ∧ ¬ ((2 : ℚ) ≤ 1)
    ∧ (initCache Unit (-1)).similarity_threshold = -1
    ∧ ¬ ((0 : ℚ) ≤ (-1 : ℚ)) := by
  exact ⟨rfl, by norm_num, rfl, by norm_num⟩

/-- Claim C10, amended: every reachable cache state keeps the
embeddings map and the responses map on exactly the same key sequence;
whenever `find_similar_prompt` returns a matched prompt, that prompt's
response is present, and `get_response` returns it provided the matched
prompt is not the empty string; and `get_response` never raises a
`KeyError`.  (For the empty-string prompt, Python's truthiness test
makes `get_response` return `None` despite the match — see the
counterexample.) -/
theorem claim10_main {E : Type} (sim : E → ℚ) (c : SCache E) (hc : ReachableCache c) (p : String) :
    c.embeddings.map Prod.fst = c.responses.map Prod.fst
    ∧ (find_similar_prompt sim c.embeddings c.similarity_threshold = some p →
        ∃ r, lookupKey p c.responses = some r
          ∧ (p ≠ "" → get_response sim c = Except.ok (some r)))
    ∧ (∃ v, get_response sim c = Except.ok v) := by
  have hkeys := reachable_keys_eq hc
  refine ⟨hkeys, ?_, ?_⟩
  · intro hp
    have hmem : p ∈ c.responses.map Prod.fst := hkeys ▸ find_mem hp
    rcases lookupKey_of_mem hmem with ⟨r, hr⟩
    refine ⟨r, hr, ?_⟩
    intro hne
    simp only [get_response, hp, if_neg hne, hr]
  · cases hf : find_similar_prompt sim c.embeddings c.similarity_threshold with
    | none => exact ⟨none, by simp only [get_response, hf]⟩
    | some q =>
      by_cases hq : q = ""
      · exact ⟨none, by simp only [get_response, hf, if_pos hq]⟩
      · have hmem : q ∈ c.responses.map Prod.fst := hkeys ▸ find_mem hf
        rcases lookupKey_of_mem hmem with ⟨r, hr⟩
        exact ⟨some r, by simp only [get_response, hf, if_neg hq, hr]⟩

/-- Witness for `claim10_main`: after inserting `("hi", 1, "yo")` into a
fresh cache with threshold 1, a query scoring 1 matches `"hi"` and
`get_response` returns `"yo"`. -/
theorem claim10_witness :
    (add_to_cache (initCache ℚ 1) "hi" 1 "yo").embeddings.map Prod.fst
      = (add_to_cache (initCache ℚ 1) "hi" 1 "yo").responses.map Prod.fst
    ∧ get_response (fun _ : ℚ => (1 : ℚ)) (add_to_cache (initCache ℚ 1) "hi" 1 "yo")
      = Except.ok (some "yo") := by
  have h := claim10_main (fun _ : ℚ => (1 : ℚ)) (add_to_cache (initCache ℚ 1) "hi" 1 "yo")
    (ReachableCache.add (ReachableCache.init 1) "hi" 1 "yo") "hi"
  obtain ⟨r, hr, himp⟩ := h.2.1 (by decide)
  have hry : r = "yo" := by
    have hval : lookupKey "hi" (add_to_cache (initCache ℚ 1) "hi" 1 "yo").responses = some "yo" := by
      decide
    rw [hval] at hr
    exact (Option.some_injective _ hr.symm)
  exact ⟨h.1, hry ▸ himp (by decide)⟩

/-- Claim C10, counterexample.  The claim states that whenever
`find_similar_prompt` returns a matched prompt, `get_response` returns
its stored response.  After `add_to_cache("", 1, "hello")` with
threshold 1 and a query scoring 1, the lookup matches the stored
empty-string prompt, whose response `"hello"` is present; yet
`get_response` returns `None` because Python's `if similar_prompt:`
treats the empty string as falsy. -/
theorem claim10_ctrex :
    find_similar_prompt (fun _ : ℚ => (1 : ℚ))
        (add_to_cache (initCache ℚ 1) "" 1 "hello").embeddings
        (add_to_cache (initCache ℚ 1) "" 1 "hello").similarity_threshold = some ""
    ∧ lookupKey "" (add_to_cache (initCache ℚ 1) "" 1 "hello").responses = some "hello"
    ∧ get_response (fun _ : ℚ => (1 : ℚ)) (add_to_cache (initCache ℚ 1) "" 1 "hello")
      = Except.ok none := by
  have hf : find_similar_prompt (fun _ : ℚ => (1 : ℚ))
      (add_to_cache (initCache ℚ 1) "" 1 "hello").embeddings
      (add_to_cache (initCache ℚ 1) "" 1 "hello").similarity_threshold = some "" := by
    decide
  refine ⟨hf, by decide, ?_⟩
  simp [get_response, hf]

/-- Claim C3: the claim (and the spec's stated edge-case policy) says
that when the uncached `energy_wh` field is present and equal to 0 the
percentage is reported as 0 with no division-by-zero error.  In the code
the default of `uncached_stats.get('energy_wh', 1)` only guards the
*absent*-key case: a present zero value is used as the divisor and the
float division raises `ZeroDivisionError`.  The second conjunct shows
the absent-key case indeed avoids the error. -/
theorem claim3_thm :
    calculate_savings
      { energy_wh := some 0, duration_seconds := some 0, avg_power_watts := none }
      { energy_wh := some 0, duration_seconds := some 0, avg_power_watts := none }
      = Except.error "ZeroDivisionError"
    ∧ ∃ rep, calculate_savings
      { energy_wh := none, duration_seconds := none, avg_power_watts := none }
      { energy_wh := none, duration_seconds := none, avg_power_watts := none }
      = Except.ok rep := by
  constructor
  · simp [calculate_savings]
  · refine ⟨{ energy_saved_wh := 0, time_saved_seconds := 0, carbon_saved_g := 0,
              trees_equivalent := 0, percentage_saved := 0 }, ?_⟩
    unfold calculate_savings
    rw [if_neg (by simp)]
    norm_num [Option.getD_none, roundTo, pyRound]

/-- Claim C4, counterexample.  The claim states the per-comparison saved
energy is recorded as `uncached - cached` unclamped even when negative.
`ABTestManager.run_comparison` computes
`energy_saved = max(0, uncached_energy - cached_energy)`: with cached
energy 2 Wh and uncached energy 1 Wh the difference is −1 but the
recorded `energy_saved_wh` is 0. -/
theorem claim4_ctrex :
    (run_comparison "p" "a" "b"
      { energy_wh := some 2, duration_seconds := some 0, avg_power_watts := none }
      { energy_wh := some 1, duration_seconds := some 0, avg_power_watts := none }).energy_saved_wh = 0
    ∧ ((1 : ℚ) - 2 < 0)
    ∧ ((0 : ℚ) ≠ 1 - 2) := by
  refine ⟨?_, by norm_num, by norm_num⟩
  show max (0 : ℚ) (1 - 2) = 0
  rw [max_eq_left (by norm_num)]

/-- Claim C4, amended: `ABTestManager.run_comparison` clamps the
per-record saved energy to `max(0, uncached − cached)`, so it is never
negative; `ChatbotApp._calculate_savings` does preserve the sign: its
`energy_saved_wh` is the difference rounded to 3 decimals, and is
strictly negative whenever the difference is at most −0.001. -/
theorem claim4_main (prompt cached_text uncached_text : String)
    (cached_metrics uncached_metrics cached_stats uncached_stats : StatsDict) :
    0 ≤ (run_comparison prompt cached_text uncached_text cached_metrics uncached_metrics).energy_saved_wh
    ∧ (run_comparison prompt cached_text uncached_text cached_metrics uncached_metrics).energy_saved_wh
        = max 0 (uncached_metrics.energy_wh.getD 0 - cached_metrics.energy_wh.getD 0)
    ∧ (uncached_stats.energy_wh.getD 1 ≠ 0 →
        ∃ rep, calculate_savings cached_stats uncached_stats = Except.ok rep
          ∧ rep.energy_saved_wh
              = roundTo 3 (uncached_stats.energy_wh.getD 0 - cached_stats.energy_wh.getD 0)
          ∧ (uncached_stats.energy_wh.getD 0 - cached_stats.energy_wh.getD 0 ≤ -(1/1000) →
              rep.energy_saved_wh < 0)) := by
  have h2 : (run_comparison prompt cached_text uncached_text cached_metrics uncached_metrics).energy_saved_wh
      = max 0 (uncached_metrics.energy_wh.getD 0 - cached_metrics.energy_wh.getD 0) := rfl
  refine ⟨by rw [h2]; exact le_max_left _ _, h2, ?_⟩
  intro hz
  unfold calculate_savings
  rw [if_neg hz]
  refine ⟨_, rfl, rfl, ?_⟩
  intro hle
  show roundTo 3 (uncached_stats.energy_wh.getD 0 - cached_stats.energy_wh.getD 0) < 0
  exact roundTo_neg hle

/-- Witness for `claim4_main`: cached energy 9 Wh, uncached energy 1 Wh
(difference −8): the A/B record clamps to a non-negative value while
`_calculate_savings` reports a strictly negative saving. -/
theorem claim4_witness :
    (0 : ℚ) ≤ (run_comparison "p" "a" "b"
      { energy_wh := some 9, duration_seconds := some 0, avg_power_watts := none }
      { energy_wh := some 1, duration_seconds := some 0, avg_power_watts := none }).energy_saved_wh
    ∧ ∃ rep, calculate_savings
        { energy_wh := some 9, duration_seconds := some 0, avg_power_watts := none }
        { energy_wh := some 1, duration_seconds := some 0, avg_power_watts := none }
        = Except.ok rep ∧ rep.energy_saved_wh < 0 := by
  have h := claim4_main "p" "a" "b"
    { energy_wh := some 9, duration_seconds := some 0, avg_power_watts := none }
    { energy_wh := some 1, duration_seconds := some 0, avg_power_watts := none }
    { energy_wh := some 9, duration_seconds := some 0, avg_power_watts := none }
    { energy_wh := some 1, duration_seconds := some 0, avg_power_watts := none }
  obtain ⟨rep, hok, _, hneg⟩ := h.2.2 (by simp)
  exact ⟨h.1, rep, hok, hneg (by simp only [Option.getD]; norm_num)⟩

/-- Claim C5, amended: `end_monitoring` fills `avg_power_watts` by the
rule `avgPowerRule` — power fields require a start sample and matching
source types; the `'nvidia_gpu'` type uses the endpoint mean even when
continuous samples exist; `'macos'`/`'linux'` prefer the continuous mean
with endpoint-mean fallback; all other cases (including `'generic'` or
mixed types with continuous samples present) yield no average — and
whenever an average exists, `energy_joules` is the average times the
duration and `energy_wh` is that divided by 3600, both absent when the
average is absent; the duration is end time minus start time (0 with no
start). -/
theorem claim5_main (m : EnergyMonitor) (now : ℚ) (end_power : PowerReading) :
    (end_monitoring m now end_power).avg_power_watts = avgPowerRule m end_power
    ∧ (end_monitoring m now end_power).energy_joules =
        (end_monitoring m now end_power).avg_power_watts.map
          (fun a => a * (end_monitoring m now end_power).duration_seconds)
    ∧ (end_monitoring m now end_power).energy_wh =
        (end_monitoring m now end_power).avg_power_watts.map
          (fun a => a * (end_monitoring m now end_power).duration_seconds / 3600)
    ∧ (end_monitoring m now end_power).duration_seconds =
        (match m.start_time with
         | some t => now - t
         | none => 0) := by
  exact end_monitoring_refines m now end_power

/-- Claim C5, counterexample.  The claim states `avg_power_watts`
prefers the mean of the continuous background samples whenever at least
one exists.  On macOS with both endpoint readings degraded to type
`'generic'` (e.g. `powermetrics` missing, so the macOS branch raises
and falls through) the continuous sampler still collected one CPU-usage
reading of 50%, giving a continuous mean of 5 W; yet `end_monitoring`
reports no average power at all, because only the `'macos'`/`'linux'`
start-sample types ever consult the continuous average. -/
theorem claim5_ctrex :
    stop_continuous (record_sample (start_monitoring (initMonitor "Darwin") 0
      { type := "generic", power_watts := none, cpu_utilization := none, memory_utilization := none }) 50)
      = some 5
    ∧ (end_monitoring (record_sample (start_monitoring (initMonitor "Darwin") 0
        { type := "generic", power_watts := none, cpu_utilization := none, memory_utilization := none }) 50) 10
        { type := "generic", power_watts := none, cpu_utilization := none, memory_utilization := none }).avg_power_watts
      = none := by
  constructor
  · norm_num [stop_continuous, record_sample, start_monitoring, initMonitor]
  · decide

/-- Claim C6: `end_monitoring` is total (the model returns a result for
every state and inputs — no exception path exists).  A start
immediately followed by stop, with every telemetry source failed (both
readings carry no power value and the start reading is not a GPU
reading), yields a non-negative duration (under a monotone clock) and
absent `avg_power_watts`, `energy_joules`, `energy_wh`; and if
`start_monitoring` was never called, the duration is 0 and all
power-derived fields are absent. -/
theorem claim6_main (sys : String) (t₁ t₂ now : ℚ) (r₁ r₂ r : PowerReading)
    (h12 : t₁ ≤ t₂) (h1p : r₁.power_watts = none) (h2p : r₂.power_watts = none)
    (h1t : r₁.type ≠ "nvidia_gpu") :
    (0 ≤ (end_monitoring (start_monitoring (initMonitor sys) t₁ r₁) t₂ r₂).duration_seconds
      ∧ (end_monitoring (start_monitoring (initMonitor sys) t₁ r₁) t₂ r₂).avg_power_watts = none
      ∧ (end_monitoring (start_monitoring (initMonitor sys) t₁ r₁) t₂ r₂).energy_joules = none
      ∧ (end_monitoring (start_monitoring (initMonitor sys) t₁ r₁) t₂ r₂).energy_wh = none)
    ∧ ((end_monitoring (initMonitor sys) now r).duration_seconds = 0
      ∧ (end_monitoring (initMonitor sys) now r).avg_power_watts = none
      ∧ (end_monitoring (initMonitor sys) now r).energy_joules = none
      ∧ (end_monitoring (initMonitor sys) now r).energy_wh = none) := by
  have hstop : stop_continuous (start_monitoring (initMonitor sys) t₁ r₁) = none := by
    unfold stop_continuous start_monitoring initMonitor
    simp
  have hsp : (start_monitoring (initMonitor sys) t₁ r₁).start_power = some r₁ := rfl
  have havg : avgPowerRule (start_monitoring (initMonitor sys) t₁ r₁) r₂ = none := by
    simp only [avgPowerRule, hsp]
    by_cases hty : r₁.type = r₂.type
    · rw [if_pos hty, if_neg h1t]
      by_cases h3 : r₁.type = "macos" ∨ r₁.type = "linux"
      · rw [if_pos h3]
        simp only [hstop, h1p]
      · rw [if_neg h3]
    · rw [if_neg hty]
  obtain ⟨ha, hj, hw, hd⟩ := end_monitoring_refines (start_monitoring (initMonitor sys) t₁ r₁) t₂ r₂
  obtain ⟨ha0, hj0, hw0, hd0⟩ := end_monitoring_refines (initMonitor sys) now r
  have havg0 : avgPowerRule (initMonitor sys) r = none := rfl
  refine ⟨⟨?_, ?_, ?_, ?_⟩, ?_, ?_, ?_, ?_⟩
  · rw [hd]
    show (0 : ℚ) ≤ t₂ - t₁
    linarith
  · rw [ha, havg]
  · rw [hj, ha, havg]
    rfl
  · rw [hw, ha, havg]
    rfl
  · rw [hd0]
    rfl
  · rw [ha0, havg0]
  · rw [hj0, ha0, havg0]
    rfl
  · rw [hw0, ha0, havg0]
    rfl

/-- Witness for `claim6_main`: macOS system, start at time 0, stop at
time 1, all readings degraded to `'generic'` with no power values; plus
a stop with no preceding start at time 5. -/
theorem claim6_witness :
    (0 ≤ (end_monitoring (start_monitoring (initMonitor "Darwin") 0
        { type := "generic", power_watts := none, cpu_utilization := none, memory_utilization := none }) 1
        { type := "generic", power_watts := none, cpu_utilization := none, memory_utilization := none }).duration_seconds)
    ∧ (end_monitoring (start_monitoring (initMonitor "Darwin") 0
        { type := "generic", power_watts := none, cpu_utilization := none, memory_utilization := none }) 1
        { type := "generic", power_watts := none, cpu_utilization := none, memory_utilization := none }).avg_power_watts = none
    ∧ (end_monitoring (initMonitor "Darwin") 5
        { type := "generic", power_watts := none, cpu_utilization := none, memory_utilization := none }).duration_seconds = 0 := by
  have h := claim6_main "Darwin" 0 1 5
    { type := "generic", power_watts := none, cpu_utilization := none, memory_utilization := none }
    { type := "generic", power_watts := none, cpu_utilization := none, memory_utilization := none }
    { type := "generic", power_watts := none, cpu_utilization := none, memory_utilization := none }
    (by norm_num) rfl rfl (by decide)
  exact ⟨h.1.1, h.1.2.1, h.2.1⟩

/-- Claim C7: on macOS, calling `start_monitoring` a second time without
an intervening stop replaces the active window: the start time and
baseline sample are overwritten with the second call's values, the
`power_readings` list is reset, the continuous-sampler file accumulated
since the first start is truncated, and the duration reported by the
following `end_monitoring` is measured from the second start. -/
theorem claim7_main (t₁ t₂ t₃ : ℚ) (r₁ r₂ r₃ : PowerReading) (cs : List ℚ) :
    (start_monitoring (cs.foldl record_sample (start_monitoring (initMonitor "Darwin") t₁ r₁)) t₂ r₂).start_time = some t₂
    ∧ (start_monitoring (cs.foldl record_sample (start_monitoring (initMonitor "Darwin") t₁ r₁)) t₂ r₂).start_power = some r₂
    ∧ (start_monitoring (cs.foldl record_sample (start_monitoring (initMonitor "Darwin") t₁ r₁)) t₂ r₂).power_file = []
    ∧ (start_monitoring (cs.foldl record_sample (start_monitoring (initMonitor "Darwin") t₁ r₁)) t₂ r₂).power_readings = []
    ∧ (end_monitoring (start_monitoring (cs.foldl record_sample (start_monitoring (initMonitor "Darwin") t₁ r₁)) t₂ r₂) t₃ r₃).duration_seconds = t₃ - t₂ := by
  have hsys : (cs.foldl record_sample (start_monitoring (initMonitor "Darwin") t₁ r₁)).system = "Darwin" := by
    rw [foldl_record_sample_system]
    rfl
  refine ⟨rfl, rfl, ?_, rfl, ?_⟩
  · show (if (cs.foldl record_sample (start_monitoring (initMonitor "Darwin") t₁ r₁)).system = "Darwin"
        then ([] : List ℚ)
        else (cs.foldl record_sample (start_monitoring (initMonitor "Darwin") t₁ r₁)).power_file) = []
    rw [hsys]
    simp
  · obtain ⟨-, -, -, hd⟩ := end_monitoring_refines
      (start_monitoring (cs.foldl record_sample (start_monitoring (initMonitor "Darwin") t₁ r₁)) t₂ r₂) t₃ r₃
    rw [hd]
    rfl
